import Mathlib

/-!
Verification development for the CaveCalc V2.0 comparison/data-analysis (CDA)
core: a shallow embedding, in Lean 4, of the post-processing and matching
algorithms of `cavecalc/util.py` (PostProcessor, DBReader) and of the batch
runner of `cavecalc/forward_models.py` (ForwardModels), together with theorems
settling the specified behavioural properties.

Modelling conventions:
- Python floats are embedded as exact rationals (`ℚ`); float NaN does not
  exist in `ℚ`, so the source's vacuous `x != x` NaN guards drop out, and the
  distinguished missing value (`None`, or a NaN produced by the code itself)
  is embedded as `Option.none`.
- Fallible Python code (uncaught exceptions such as IndexError / TypeError /
  ZeroDivisionError escaping a statement) is embedded in `Except Unit`, with
  `.error ()` standing for an uncaught exception aborting the surrounding
  computation.  Exception handlers in the source (`try`/`except`) are
  embedded by the corresponding total case analysis.
- File contents read from disk (the thermodynamic database, the measured-data
  table, CSV files) are embedded as already-parsed values; the on-disk CSV
  files written by the CDA are embedded as lists of rows.
-/

/-! ## String helpers

The source tests membership with Python's `'sub' in s` and normalizes
measured-data column headers with
`str.strip().str.lower().str.replace(r'[^a-z0-9]', '', regex=True)`.
-/

/-- Does the second character list occur as a leading block of the first
argument scanned against the second?  (`startsWithChars sub l` is true iff
`l` begins with `sub`.) -/
def startsWithChars : List Char → List Char → Bool
  | [], _ => true
  | _ :: _, [] => false
  | a :: as, b :: bs => a == b && startsWithChars as bs

/-- Does `sub` occur contiguously inside the list? -/
def containsChars (sub : List Char) : List Char → Bool
  | [] => sub.isEmpty
  | c :: rest => startsWithChars sub (c :: rest) || containsChars sub rest

/-- Python's `sub in hay` substring test. -/
def strContains (hay sub : String) : Bool := containsChars sub.data hay.data

/-- Python's `str.strip()`: drop leading and trailing whitespace. -/
def trimChars (l : List Char) : List Char :=
  ((l.dropWhile Char.isWhitespace).reverse.dropWhile Char.isWhitespace).reverse

/-- Header normalization used by `PostProcessor.CDA`: strip whitespace,
lower-case, and delete every non-alphanumeric character
(`df.columns.str.strip().str.lower().str.replace(r'[^a-z0-9]', '', regex=True)`). -/
def normalizeCol (s : String) : String :=
  String.mk (((trimChars s.data).map Char.toLower).filter Char.isAlphanum)

/-! ## List indexing helpers -/

/-- Python list indexing `l[j]` for a non-negative index: an out-of-range
access raises IndexError, embedded as `.error ()`. -/
def pyIndex (l : List ℚ) (j : ℕ) : Except Unit ℚ :=
  match l.get? j with
  | some v => Except.ok v
  | none => Except.error ()

/-- Python list indexing with possibly negative index, as used by
`calculate_XCa` through `ca[i-1]` (which at `i = 0` wraps to the LAST
element).  Out-of-range access yields the default `0` here; the theorems
below only invoke it in range. -/
def pyGet (l : List ℚ) (i : ℤ) : ℚ :=
  if i < 0 then l.getD (l.length - (-i).toNat) 0 else l.getD i.toNat 0

/-! ## PostProcessor.calculate_radiocarbon (util.py lines 923-952)

For every output key containing "R14C" the source walks the step list with a
running `pmc` value: at a step whose `step_desc` contains "bedrock" it
records that step's value, and at any later step (once `pmc` is set) it
overwrites the entry with the recorded value.  Then
`DCP = (1 - R14C/100) * 100` with a 100 pMC modern baseline.
-/

/-- One pass of the radiocarbon freeze loop, carrying the running `pmc`
accumulator over (step description, value) pairs. -/
def r14cFix (pmc : Option ℚ) : List (String × ℚ) → List ℚ
  | [] => []
  | (d, v) :: rest =>
    if strContains d "bedrock" then v :: r14cFix (some v) rest
    else
      match pmc with
      | some p => p :: r14cFix (some p) rest
      | none => v :: r14cFix none rest

/-- The in-place rewrite `calculate_radiocarbon` applies to one R14C series
(the source zips the series against the parallel `step_desc` list). -/
def calculate_radiocarbon (step_desc : List String) (vals : List ℚ) : List ℚ :=
  r14cFix none (step_desc.zip vals)

/-- The derived DCP series: `(1 - v/atmo_a14c_init) * 100` with
`atmo_a14c_init = 100`. -/
def dcpOf (r14c : List ℚ) : List ℚ :=
  r14c.map (fun v => (1 - v / 100) * 100)

/-! ## PostProcessor.VSMOW_to_VPDB (util.py lines 379-413)

The source selects the mineralogy-specific raw key, then builds `d18O_PDB`
by writing NaN at indices 0 and 1 and `x * 0.97001 - 29.99` elsewhere (NaN
for a `None` entry).
-/

/-- The mineralogy-specific raw key the conversion reads
(`I_R(18O)_Calcite` or `I_R(18O)_Aragonite`; any other mineralogy makes the
method print a warning and return without writing `d18O_PDB`). -/
def vsmowRawKey (mineralogy : String) : Option String :=
  if mineralogy = "Calcite" then some "I_R(18O)_Calcite"
  else if mineralogy = "Aragonite" then some "I_R(18O)_Aragonite"
  else none

/-- The `d18O_PDB` series written by `VSMOW_to_VPDB`: entries at index `< 2`
are NaN (embedded `none`), later entries are `x * 0.97001 - 29.99` when the
raw entry `x` is present and NaN when it is `None`. -/
def vsmow_to_vpdb (d18O : List (Option ℚ)) : List (Option ℚ) :=
  d18O.enum.map (fun p =>
    if p.1 < 2 then none else p.2.map (fun v => v * 0.97001 - 29.99))

/-! ## PostProcessor.calculate_XCa (util.py lines 419-463)

For each trace element X in Ba, Sr, Mg, U and each step `i`:
dissolved ratio `(X[i]*w[i]) / (Ca[i]*w[i])` with ZeroDivisionError coerced
to 0; at a step whose description contains "CaCO3_precipitation" the
precipitated ratio is the step-over-step drop in dissolved X mass over the
step-over-step drop in dissolved Ca mass (ZeroDivisionError again coerced to
0), and at every other step the precipitated ratio is 0.
-/

/-- Dissolved X/Ca at step `i`: `x_dissolved / dissolved_ca`, with the
`except ZeroDivisionError` branch appending `0`. -/
def dissolvedXCa (ca w x : List ℚ) (i : ℕ) : ℚ :=
  let dca := pyGet ca i * pyGet w i
  let xd := pyGet x i * pyGet w i
  if dca = 0 then 0 else xd / dca

/-- The precipitated-Ca denominator `solid_ca = ca[i]*w[i] - ca[i-1]*w[i-1]`
computed at a precipitation step (Python's `i-1` wraps at `i = 0`). -/
def solidCaAt (ca w : List ℚ) (i : ℕ) : ℚ :=
  pyGet ca i * pyGet w i - pyGet ca ((i : ℤ) - 1) * pyGet w ((i : ℤ) - 1)

/-- Precipitated X/Ca at step `i`: zero at a non-precipitation step, else
`x_precip / solid_ca` with ZeroDivisionError coerced to 0. -/
def precipXCa (step_desc : List String) (ca w x : List ℚ) (i : ℕ) : ℚ :=
  if strContains (step_desc.getD i "") "CaCO3_precipitation" then
    let sca := solidCaAt ca w i
    let xp := pyGet x i * pyGet w i - pyGet x ((i : ℤ) - 1) * pyGet w ((i : ℤ) - 1)
    if sca = 0 then 0 else xp / sca
  else 0

/-- The dissolved `X/Ca(mol/mol)` series produced by `calculate_XCa` for one
trace element with molality list `x` (one entry per step description). -/
def xcaDissolvedSeries (step_desc : List String) (ca w x : List ℚ) : List ℚ :=
  (List.range step_desc.length).map (fun i => dissolvedXCa ca w x i)

/-- The precipitated `X/Ca(mol/mol)_<mineralogy>` series produced by
`calculate_XCa` for one trace element. -/
def xcaPrecipSeries (step_desc : List String) (ca w x : List ℚ) : List ℚ :=
  (List.range step_desc.length).map (fun i => precipXCa step_desc ca w x i)

/-! ## PostProcessor.CDA: measured data, predicted values and the match loop
(util.py lines 494-741)

The measured-data file contributes an age column plus up to eight optional
proxy columns; each column is `dropna().tolist()`-ed, so a proxy is either
absent (`None` in the source, `none` here) or a list of rationals.  Python
truthiness makes an EMPTY proxy list behave like an absent one in most
guards, except for the `d44Ca_data is not None` guard which the source
checks by identity.
-/

/-- The per-proxy measured series extracted from the user file. -/
structure Measured where
  age : List ℚ
  d13C : Option (List ℚ)
  d18O : Option (List ℚ)
  MgCa : Option (List ℚ)
  dcp : Option (List ℚ)
  d44Ca : Option (List ℚ)
  SrCa : Option (List ℚ)
  BaCa : Option (List ℚ)
  UCa : Option (List ℚ)

/-- The eight per-proxy tolerance settings read from the parameter set. -/
structure Tolerances where
  d13C : ℚ
  d18O : ℚ
  MgCa : ℚ
  dcp : ℚ
  d44Ca : ℚ
  SrCa : ℚ
  BaCa : ℚ
  UCa : ℚ

/-- The raw predicted values extracted from the model output at one step
`i` (lines 617-627): each is `None` when the output entry is `None`. -/
structure SpelRaw where
  d13C : Option ℚ
  d18O : Option ℚ
  MgCa : Option ℚ
  SrCa : Option ℚ
  BaCa : Option ℚ
  UCa : Option ℚ
  dcp : Option ℚ
  d44Ca : Option ℚ

/-- The predicted values after the unit transforms and `-999` coercions of
lines 629-641: d13C, d18O and d44Ca are always numbers afterwards (missing
values become `-999`), the X/Ca ratios are scaled by 1000 but stay optional,
and DCP is passed through untouched. -/
structure SpelVals where
  d13C : ℚ
  d18O : ℚ
  d44Ca : ℚ
  MgCa : Option ℚ
  SrCa : Option ℚ
  BaCa : Option ℚ
  UCa : Option ℚ
  dcp : Option ℚ

/-- Lines 629-641: VSMOW-to-VPDB transform for predicted d18O, the
`* 1000` mol/mol-to-mmol/mol scaling for the four X/Ca ratios, and the
`-999` substitution for a missing d13C / d18O / d44Ca.  (The source's
`x != x` NaN tests are vacuous over `ℚ`.) -/
def spelTransform (r : SpelRaw) : SpelVals where
  d13C := match r.d13C with | none => -999 | some v => v
  d18O := match r.d18O.map (fun x => x * 0.97001 - 29.99) with
          | none => -999 | some v => v
  d44Ca := match r.d44Ca with | none => -999 | some v => v
  MgCa := r.MgCa.map (fun v => v * 1000)
  SrCa := r.SrCa.map (fun v => v * 1000)
  BaCa := r.BaCa.map (fun v => v * 1000)
  UCa := r.UCa.map (fun v => v * 1000)
  dcp := r.dcp

/-- Lines 679-680: the d13C residual at timepoint `j`.
`d13C_value` is NaN (here `none`) unless the d13C list is truthy and `j` is
in range; the residual is `d13C_spel - d13C_value`, NaN when the value is
NaN. -/
def residD13C (sv : SpelVals) (md : Measured) (j : ℕ) : Option ℚ :=
  (md.d13C.bind (fun l => l.get? j)).map (fun v => sv.d13C - v)

/-- Residual for a proxy whose predicted value is always a number after
coercion (d18O at line 700, d44Ca at line 703): `None` when the measured
list is absent or empty (falsy), an IndexError (`.error`) when it is truthy
but too short. -/
def resQSpel (spel : ℚ) (dat : Option (List ℚ)) (j : ℕ) : Except Unit (Option ℚ) :=
  match dat with
  | none => Except.ok none
  | some l =>
    if l.isEmpty then Except.ok none
    else (pyIndex l j).map (fun v => some (spel - v))

/-- Residual for a proxy whose predicted value may still be `None`
(MgCa/dcp/SrCa/BaCa/UCa, lines 701-706): as `resQSpel`, except that
subtracting from a `None` predicted value is a TypeError (`.error`). -/
def resOptSpel (spel : Option ℚ) (dat : Option (List ℚ)) (j : ℕ) :
    Except Unit (Option ℚ) :=
  match dat with
  | none => Except.ok none
  | some l =>
    if l.isEmpty then Except.ok none
    else
      match spel with
      | none => Except.error ()
      | some s => (pyIndex l j).map (fun v => some (s - v))

/-- Line 709: `abs(residual) <= tolerance if d13C_data else True`.  A NaN
residual (`none`) compares False, it does not raise. -/
def checkD13C (dat : Option (List ℚ)) (res : Option ℚ) (tol : ℚ) : Bool :=
  match dat with
  | none => true
  | some l =>
    if l.isEmpty then true
    else match res with
      | some r => |r| ≤ tol
      | none => false

/-- Lines 710-712 and 714-716: `abs(res) <= tol if data else True` for a
proxy guarded by truthiness.  When the guard is truthy the residual is a
number (or the loop already died computing it); `abs(None)` would be a
TypeError. -/
def checkTruthy (dat : Option (List ℚ)) (res : Option ℚ) (tol : ℚ) :
    Except Unit Bool :=
  match dat with
  | none => Except.ok true
  | some l =>
    if l.isEmpty then Except.ok true
    else match res with
      | some r => Except.ok (|r| ≤ tol)
      | none => Except.error ()

/-- Line 713: the d44Ca check is guarded by `d44Ca_data is not None`, an
identity test, so an empty (falsy) measured list still reaches
`abs(d44Ca_residual)` — and since the residual is then `None`, that is a
TypeError. -/
def checkD44 (dat : Option (List ℚ)) (res : Option ℚ) (tol : ℚ) :
    Except Unit Bool :=
  match dat with
  | none => Except.ok true
  | some _ =>
    match res with
    | some r => Except.ok (|r| ≤ tol)
    | none => Except.error ()

/-- The body of the inner loop over measured timepoints `j` (lines
677-718): compute the seven optional residuals, then the eight checks, and
combine them in the source's order
`residual_check and MgCa_check and dcp_check and d44Ca_check and SrCa_check
and BaCa_check and UCa_check and d18O_check`.  The result is `.ok true` iff
the row is appended to the Matches accumulator for this `(i, j)` pair. -/
def matchDecision (sv : SpelVals) (md : Measured) (tl : Tolerances) (j : ℕ) :
    Except Unit Bool :=
  (resQSpel sv.d18O md.d18O j).bind fun r18 =>
  (resOptSpel sv.MgCa md.MgCa j).bind fun rmg =>
  (resOptSpel sv.dcp md.dcp j).bind fun rdcp =>
  (resQSpel sv.d44Ca md.d44Ca j).bind fun r44 =>
  (resOptSpel sv.SrCa md.SrCa j).bind fun rsr =>
  (resOptSpel sv.BaCa md.BaCa j).bind fun rba =>
  (resOptSpel sv.UCa md.UCa j).bind fun ru =>
  (checkTruthy md.d18O r18 tl.d18O).bind fun oc =>
  (checkTruthy md.MgCa rmg tl.MgCa).bind fun mc =>
  (checkTruthy md.dcp rdcp tl.dcp).bind fun dc =>
  (checkD44 md.d44Ca r44 tl.d44Ca).bind fun cc =>
  (checkTruthy md.SrCa rsr tl.SrCa).bind fun sc =>
  (checkTruthy md.BaCa rba tl.BaCa).bind fun bc =>
  (checkTruthy md.UCa ru tl.UCa).bind fun uc =>
  Except.ok (checkD13C md.d13C (residD13C sv md j) tl.d13C
    && mc && dc && cc && sc && bc && uc && oc)

/-- The loop `for index in range(len(age_data))` restricted to the match
bookkeeping: it returns the list of timepoint indices `j` whose row is
appended to the Matches accumulator, or `.error` if an iteration raised. -/
def matchLoop (sv : SpelVals) (md : Measured) (tl : Tolerances) :
    List ℕ → Except Unit (List ℕ)
  | [] => Except.ok []
  | j :: rest =>
    (matchDecision sv md tl j).bind fun b =>
    (matchLoop sv md tl rest).bind fun ms =>
    Except.ok (if b then j :: ms else ms)

/-- The matched timepoints recorded for one model step: the inner loop run
over `range(len(age_data))`. -/
def cdaMatches (sv : SpelVals) (md : Measured) (tl : Tolerances) :
    Except Unit (List ℕ) :=
  matchLoop sv md tl (List.range md.age.length)

/-! ## CDA persistence of the All-Outputs table (util.py lines 847-856)

`All_outputs.csv` is created with a header by `to_csv(index=False)` when the
path does not yet exist, and appended to with
`to_csv(mode='a', header=False, index=False)` when it does.  A CSV file on
disk is embedded as its list of rows; the file-system slot for the path is
an `Option` (absent or present).
-/

/-- `DataFrame.to_csv(path, index=False)` on a fresh path: one header row
followed by the data rows. -/
def toCsvNew (header : List String) (rows : List (List String)) :
    List (List String) :=
  header :: rows

/-- `DataFrame.to_csv(path, mode='a', header=False, index=False)`: the data
rows are appended to the existing file, no header row is written. -/
def toCsvAppendRows (file : List (List String)) (rows : List (List String)) :
    List (List String) :=
  file ++ rows

/-- One invocation of the All-Outputs persistence step: create-with-header
if the file is absent, append-without-header if it is present. -/
def writeAllOutputs (fs : Option (List (List String))) (header : List String)
    (rows : List (List String)) : List (List String) :=
  match fs with
  | none => toCsvNew header rows
  | some f => toCsvAppendRows f rows

/-! ## ForwardModels: reuse detection and result collection
(forward_models.py lines 114-226)

A `SettingsObject` is embedded as its integer `id` plus its settings dict
`SO.dict()`.  Setting values are heterogeneous Python objects compared only
for equality, so the embedding is generic over a value type with decidable
equality; a dict is an association list of key/value pairs.
-/

/-- A settings dict: keys with values. -/
def PDict (V : Type) : Type := List (String × V)

/-- The key-set comparison `SO.dict().keys() != s.dict().keys()` (Python
compares dict key views as sets). -/
def keysSetEq {V : Type} (a b : PDict V) : Bool :=
  (a.map Prod.fst).all (fun k => (b.map Prod.fst).contains k)
    && (b.map Prod.fst).all (fun k => (a.map Prod.fst).contains k)

/-- The equality test inside `dict_find`: key sets must match exactly, and
for every key the two values must be equal. -/
def dictEq {V : Type} [DecidableEq V] (a b : PDict V) : Bool :=
  keysSetEq a b && a.all (fun kv => b.lookup kv.fst == some kv.snd)

/-- A SettingsObject: its `id` attribute and its settings dict. -/
structure SO (V : Type) where
  id : ℕ
  params : PDict V

/-- `dict_find`: index of the first element of the list whose dict equals
the probe's dict, if any. -/
def dict_find {V : Type} [DecidableEq V] (so : SO V) : List (SO V) → Option ℕ
  | [] => none
  | s :: rest =>
    if dictEq so.params s.params then some 0
    else (dict_find so rest).map (fun i => i + 1)

/-- The partition performed by `_check_previous_saves` when reuse is
enabled: walk the submitted settings in order; a settings object with no
previously saved twin joins `new_input`, one with a saved twin at index `i`
contributes `prev_input[i]` to `done_input` and `prev_results[i]` to
`done_results` (an out-of-range results access would be an uncaught
IndexError). -/
def checkPreviousSaves {V : Type} [DecidableEq V] {R : Type} :
    List (SO V) → List (SO V) → List R →
    Except Unit (List (SO V) × List (SO V) × List R)
  | [], _, _ => Except.ok ([], [], [])
  | s :: rest, prev, res =>
    match dict_find s prev with
    | none =>
      (checkPreviousSaves rest prev res).map
        (fun t => (s :: t.1, t.2.1, t.2.2))
    | some i =>
      match prev.get? i, res.get? i with
      | some p, some r =>
        (checkPreviousSaves rest prev res).map
          (fun t => (t.1, p :: t.2.1, r :: t.2.2))
      | _, _ => Except.error ()

/-- `run_models` in serial mode after `_check_previous_saves`: run the
solver once per pending settings object in submission order collecting
`(result, id)` pairs (`run_linear` of `run_a_model`), then
`self.results.extend(self.done_results)` and
`self.input.extend(self.done_input)`. -/
def runModels {V : Type} {R : Type} (solve : SO V → R)
    (pending done_input : List (SO V)) (done_results : List (R × ℕ)) :
    List (R × ℕ) × List (SO V) :=
  (pending.map (fun s => (solve s, s.id)) ++ done_results,
   pending ++ done_input)

/-! ## CDA measured-file ingestion (util.py lines 528-562)

Column lookup happens inside a `try` block whose `except Exception` handler
prints a message and returns from `CDA`.  The age column is found by
filtering the normalized headers for the substring "age" and taking element
`[0]` — an IndexError (caught, then an early return) when no header
matches; proxy columns fall back to `None` when their filter is empty.
-/

/-- The columns selected from the normalized headers: a (required) age
column and up to eight optional proxy columns, each the FIRST header
containing the proxy substring. -/
structure SelectedCols where
  age : String
  d13c : Option String
  d18o : Option String
  mgca : Option String
  dcp : Option String
  d44ca : Option String
  srca : Option String
  baca : Option String
  uca : Option String
deriving DecidableEq

/-- Column selection over the normalized headers.  `none` is the IndexError
case: no header contains "age". -/
def selectCols (cols : List String) : Option SelectedCols :=
  match (cols.filter (fun c => strContains c "age")).head? with
  | none => none
  | some a =>
    some
      { age := a
        d13c := (cols.filter (fun c => strContains c "d13c")).head?
        d18o := (cols.filter (fun c => strContains c "d18o")).head?
        mgca := (cols.filter (fun c => strContains c "mgca")).head?
        dcp := (cols.filter (fun c => strContains c "dcp")).head?
        d44ca := (cols.filter (fun c => strContains c "d44ca")).head?
        srca := (cols.filter (fun c => strContains c "srca")).head?
        baca := (cols.filter (fun c => strContains c "baca")).head?
        uca := (cols.filter (fun c => strContains c "uca")).head? }

/-- How the ingestion phase of `CDA` can end.  `raised` stands for an
exception propagating out of `CDA` (aborting the run); the source never
produces it here — the `except` handler turns any load error into
`caughtError`, which prints and returns from `CDA` with the run
continuing. -/
inductive CDAIngest where
  | noFilepath
  | caughtError
  | proceeds (sc : SelectedCols)
  | raised (msg : String)
deriving DecidableEq

/-- Lines 528-562 of `CDA`: return immediately when `user_filepath` is
falsy; otherwise normalize the headers and select columns, the missing-age
IndexError being caught (message printed, early return). -/
def cdaIngest (file_path : String) (rawCols : List String) : CDAIngest :=
  if file_path = "" then CDAIngest.noFilepath
  else
    match selectCols (rawCols.map normalizeCol) with
    | none => CDAIngest.caughtError
    | some sc => CDAIngest.proceeds sc

/-! ## DBReader (util.py lines 54-233)

The thermodynamic database is embedded as its parsed NAMED_EXPRESSIONS
entries: each `(isotope, species)` pair carries a list of lines, a line
being either `-ln_alpha1000` with polynomial coefficients or `-add_logk`
referring to another pair with an integer multiplier.  `_database_eval`
evaluates the coefficient polynomial against
`[1, T, 1/T, log10(T), 1/T^2, T^2]`; `get_1000lnalpha` sums line values
with one level of recursion per `-add_logk` (embedded with explicit fuel,
`none` standing for a raised lookup failure or runaway recursion);
`get_alpha` exponentiates — but, as line 232 of the source passes the
literal `temperature=298.15`, it always evaluates `get_1000lnalpha` at
298.15 K whatever temperature it was given.
-/

/-- One parsed database line of a NAMED_EXPRESSIONS entry. -/
inductive DBEntry where
  | addLogk (iso sp : String) (mult : ℤ)
  | lnAlpha1000 (coeffs : List ℝ)

/-- The parsed database: named-expression entries keyed by isotope and
species pair. -/
def IsoDB : Type := List ((String × String) × List DBEntry)

/-- `_ne_lookup`: the first entry matching the isotope/species pair, `none`
for the raised "No NAMED EXPRESSIONS entry matched" exception. -/
def neLookup (db : IsoDB) (iso sp : String) : Option (List DBEntry) :=
  (db.find? (fun e => e.1.1 == iso && e.1.2 == sp)).map (fun e => e.2)

/-- `_database_eval`: sum of `coeffs[i] * [1, T, 1/T, log10 T, 1/T^2, T^2][i]`. -/
noncomputable def database_eval (coeffs : List ℝ) (T : ℝ) : ℝ :=
  ((coeffs.zip [1, T, 1/T, Real.logb 10 T, 1/(T*T), T*T]).map
    (fun p => p.1 * p.2)).sum

/-- `get_1000lnalpha`: convert a sub-50 temperature from Celsius to Kelvin,
look the pair up, and sum the entry lines — `-add_logk` lines recurse with
an integer multiplier.  Fuel bounds the recursion depth; the source would
recurse without bound on a cyclic database. -/
noncomputable def get_1000lnalpha (fuel : ℕ) (db : IsoDB) (iso sp : String) (T0 : ℝ) :
    Option ℝ :=
  match fuel with
  | 0 => none
  | Nat.succ f =>
    let T := if T0 < 50 then T0 + 273.15 else T0
    match neLookup db iso sp with
    | none => none
    | some es =>
      es.foldl
        (fun acc e =>
          match acc, e with
          | none, _ => none
          | some v, DBEntry.addLogk i2 s2 m =>
            match get_1000lnalpha f db i2 s2 T with
            | some w => some (v + w * (m : ℝ))
            | none => none
          | some v, DBEntry.lnAlpha1000 cs => some (v + database_eval cs T))
        (some 0)

/-- `get_alpha` as written at util.py line 232: the temperature argument is
accepted but the call to `get_1000lnalpha` passes the literal
`temperature=298.15`. -/
noncomputable def get_alpha (fuel : ℕ) (db : IsoDB) (iso sp : String)
    (_temperature : ℝ) : Option ℝ :=
  (get_1000lnalpha fuel db iso sp 298.15).map (fun v => Real.exp (0.001 * v))

/-! ## Theorems -/

/-- C5: invoking the All-Outputs persistence step twice in succession
against the same (initially absent) file yields the data rows of both
invocations under exactly one header row: the first call creates the file
with a header, the second appends rows without one. -/
theorem allOutputs_append_safe (h : List String) (r1 r2 : List (List String))
    (h1 : h ∉ r1) (h2 : h ∉ r2) :
    writeAllOutputs (some (writeAllOutputs none h r1)) h r2 = h :: (r1 ++ r2)
    ∧ (writeAllOutputs (some (writeAllOutputs none h r1)) h r2).count h = 1 := by
  constructor
  · simp [writeAllOutputs, toCsvNew, toCsvAppendRows]
  · simp [writeAllOutputs, toCsvNew, toCsvAppendRows, List.count_cons,
      List.count_append, List.count_eq_zero_of_not_mem h1,
      List.count_eq_zero_of_not_mem h2]

/-- Witness for C5 at a concrete header and concrete single-row payloads. -/
theorem allOutputs_append_safe_witness :
    (["A"] ∉ [[("1" : String)]]) ∧ (["A"] ∉ [[("2" : String)]]) ∧
    writeAllOutputs (some (writeAllOutputs none ["A"] [["1"]])) ["A"] [["2"]]
      = ["A"] :: ([["1"]] ++ [["2"]])
    ∧ (writeAllOutputs (some (writeAllOutputs none ["A"] [["1"]])) ["A"]
        [["2"]]).count ["A"] = 1 :=
  ⟨by decide, by decide,
    (allOutputs_append_safe ["A"] [["1"]] [["2"]] (by decide) (by decide)).1,
    (allOutputs_append_safe ["A"] [["1"]] [["2"]] (by decide) (by decide)).2⟩

/-- The dissolved series holds `dissolvedXCa` at every in-range index. -/
theorem xcaDissolved_get (step_desc : List String) (ca w x : List ℚ) (i : ℕ)
    (hi : i < step_desc.length) :
    (xcaDissolvedSeries step_desc ca w x).get? i
      = some (dissolvedXCa ca w x i) := by
  simp only [xcaDissolvedSeries, List.get?_eq_getElem?, List.getElem?_map,
    List.getElem?_range hi, Option.map_some']

/-- The precipitated series holds `precipXCa` at every in-range index. -/
theorem xcaPrecip_get (step_desc : List String) (ca w x : List ℚ) (i : ℕ)
    (hi : i < step_desc.length) :
    (xcaPrecipSeries step_desc ca w x).get? i
      = some (precipXCa step_desc ca w x i) := by
  simp only [xcaPrecipSeries, List.get?_eq_getElem?, List.getElem?_map,
    List.getElem?_range hi, Option.map_some']

/-- C4: at any step whose dissolved-Ca denominator `ca[i]*w[i]` is exactly
0 the dissolved X/Ca ratio is exactly 0; at a precipitation step whose
solid-Ca difference is exactly 0 the precipitated ratio is exactly 0; and
at any non-precipitation step the precipitated ratio is 0.  (Over `ℚ`
there is no NaN or infinity to produce.) -/
theorem xca_zero_coercion (step_desc : List String) (ca w x : List ℚ) (i : ℕ)
    (hi : i < step_desc.length) :
    (pyGet ca i * pyGet w i = 0 →
      (xcaDissolvedSeries step_desc ca w x).get? i = some 0)
    ∧ (strContains (step_desc.getD i "") "CaCO3_precipitation" = true →
        solidCaAt ca w i = 0 →
        (xcaPrecipSeries step_desc ca w x).get? i = some 0)
    ∧ (strContains (step_desc.getD i "") "CaCO3_precipitation" = false →
        (xcaPrecipSeries step_desc ca w x).get? i = some 0) := by
  refine ⟨fun hden => ?_, fun hpre hsca => ?_, fun hnot => ?_⟩
  · rw [xcaDissolved_get step_desc ca w x i hi]
    unfold dissolvedXCa
    rw [if_pos hden]
  · rw [xcaPrecip_get step_desc ca w x i hi]
    unfold precipXCa
    rw [if_pos hpre]
    simp only [hsca, if_true]
  · rw [xcaPrecip_get step_desc ca w x i hi]
    unfold precipXCa
    rw [hnot]
    simp

/-- Witness for C4: a two-step model whose water mass is zero at step 0
(zero dissolved-Ca denominator) and whose step 1 is a precipitation step
with zero solid-Ca difference. -/
theorem xca_zero_coercion_witness :
    (xcaDissolvedSeries ["dissolve_bedrock", "CaCO3_precipitation_1"]
        [2, 1] [0, 0] [3, 3]).get? 0 = some 0
    ∧ (xcaPrecipSeries ["dissolve_bedrock", "CaCO3_precipitation_1"]
        [2, 1] [0, 0] [3, 3]).get? 1 = some 0
    ∧ (xcaPrecipSeries ["dissolve_bedrock", "CaCO3_precipitation_1"]
        [2, 1] [0, 0] [3, 3]).get? 0 = some 0 := by
  refine ⟨?_, ?_, ?_⟩
  · exact (xca_zero_coercion ["dissolve_bedrock", "CaCO3_precipitation_1"]
      [2, 1] [0, 0] [3, 3] 0 (by norm_num)).1
      (by norm_num [pyGet])
  · exact (xca_zero_coercion ["dissolve_bedrock", "CaCO3_precipitation_1"]
      [2, 1] [0, 0] [3, 3] 1 (by norm_num)).2.1 (by decide)
      (by norm_num [solidCaAt, pyGet])
  · exact (xca_zero_coercion ["dissolve_bedrock", "CaCO3_precipitation_1"]
      [2, 1] [0, 0] [3, 3] 0 (by norm_num)).2.2 (by decide)

/-- C10 counterexample: the claim "for EVERY step index i,
d18O_PDB[i] = d18O_raw[i] * 0.97001 - 29.99" fails at index 0, where the
source writes NaN unconditionally: on the raw series `[10]` the produced
entry at index 0 is the missing marker, not `10 * 0.97001 - 29.99`. -/
theorem vsmow_first_indices_counterexample :
    (vsmow_to_vpdb [some 10]).get? 0 = some none
    ∧ (vsmow_to_vpdb [some 10]).get? 0
        ≠ some (some ((10 : ℚ) * 0.97001 - 29.99)) := by
  refine ⟨rfl, ?_⟩
  intro hcontra
  rw [show (vsmow_to_vpdb [some 10]).get? 0 = some none from rfl] at hcontra
  simp at hcontra

/-- C10 amended: for every step index `i ≥ 2` whose raw entry is present,
`d18O_PDB[i] = d18O_raw[i] * 0.97001 - 29.99`; indices 0 and 1 (and `None`
entries) are set to the missing marker instead. -/
theorem vsmow_conversion (d18O : List (Option ℚ)) (i : ℕ) (v : ℚ)
    (hi : 2 ≤ i) (hv : d18O.get? i = some (some v)) :
    (vsmow_to_vpdb d18O).get? i = some (some (v * 0.97001 - 29.99))
    ∧ (vsmow_to_vpdb d18O).get? 0 = (d18O.get? 0).map (fun _ => none)
    ∧ (vsmow_to_vpdb d18O).get? 1 = (d18O.get? 1).map (fun _ => none) := by
  refine ⟨?_, ?_, ?_⟩
  · simp only [vsmow_to_vpdb, List.get?_eq_getElem?, List.getElem?_map,
      List.getElem?_enum]
    rw [List.get?_eq_getElem?] at hv
    rw [hv]
    simp only [Option.map_some']
    rw [if_neg (by omega)]
  · simp only [vsmow_to_vpdb, List.get?_eq_getElem?, List.getElem?_map,
      List.getElem?_enum]
    cases h0 : d18O[0]? <;> simp
  · simp only [vsmow_to_vpdb, List.get?_eq_getElem?, List.getElem?_map,
      List.getElem?_enum]
    cases h1 : d18O[1]? <;> simp

/-- Witness for the amended C10 on a concrete three-step series. -/
theorem vsmow_conversion_witness :
    (vsmow_to_vpdb [some 1, none, some 10]).get? 2
      = some (some ((10 : ℚ) * 0.97001 - 29.99)) :=
  (vsmow_conversion [some 1, none, some 10] 2 10 (by norm_num) rfl).1

/-- C3 counterexample: on the claim's own input — R14C series
`[100, 95, 95.1, 94.9]` with descriptions
`["dissolve_bedrock", "degas_1", "degas_2", "degas_3"]` — the source
freezes the value found AT the bedrock step, which is 100, so the
normalized series is `[100, 100, 100, 100]`, not `[100, 95, 95, 95]`, and
DCP at index 1 is 0, not 5. -/
theorem radiocarbon_freeze_counterexample :
    calculate_radiocarbon ["dissolve_bedrock", "degas_1", "degas_2", "degas_3"]
        [100, 95, 95.1, 94.9] = [100, 100, 100, 100]
    ∧ calculate_radiocarbon ["dissolve_bedrock", "degas_1", "degas_2", "degas_3"]
        [100, 95, 95.1, 94.9] ≠ [100, 95, 95, 95]
    ∧ (dcpOf (calculate_radiocarbon
        ["dissolve_bedrock", "degas_1", "degas_2", "degas_3"]
        [100, 95, 95.1, 94.9])).get? 1 ≠ some 5 := by
  have hrun : calculate_radiocarbon
      ["dissolve_bedrock", "degas_1", "degas_2", "degas_3"]
      [100, 95, 95.1, 94.9] = [100, 100, 100, 100] := rfl
  refine ⟨hrun, ?_, ?_⟩
  · rw [hrun]
    intro hcontra
    have h95 := congrArg (fun l => List.getD l 1 0) hcontra
    norm_num at h95
  · rw [hrun]
    intro hcontra
    simp only [dcpOf, List.map_cons, List.get?] at hcontra
    rw [Option.some_inj] at hcontra
    norm_num at hcontra

/-- A run of non-bedrock steps after the accumulator is set is overwritten
with the accumulator value. -/
theorem r14cFix_const (p : ℚ) (l : List (String × ℚ))
    (hl : ∀ d ∈ l.map Prod.fst, strContains d "bedrock" = false) :
    r14cFix (some p) l = List.replicate l.length p := by
  induction l with
  | nil => rfl
  | cons hd tl ih =>
    obtain ⟨d, v⟩ := hd
    have hd0 : strContains d "bedrock" = false := hl d (by simp)
    simp only [r14cFix, hd0, Bool.false_eq_true, if_false, List.length_cons,
      List.replicate_succ]
    exact congrArg (p :: ·) (ih (fun d' hd' => hl d' (by simp [hd'])))

/-- C3 amended: when the first step is the only bedrock-tagged one, the
value frozen is that step's OWN value `v`, and every later entry is
overwritten with `v`; and then DCP at index 1 equals `(1 - v/100) * 100`.
On the claim's concrete input this gives `[100, 100, 100, 100]` and DCP of
0 at index 1. -/
theorem radiocarbon_freeze (d : String) (v : ℚ) (ds : List String)
    (vs : List ℚ) (hb : strContains d "bedrock" = true)
    (hrest : ∀ s ∈ ds, strContains s "bedrock" = false)
    (hlen : ds.length = vs.length) (hne : vs ≠ []) :
    calculate_radiocarbon (d :: ds) (v :: vs) = v :: List.replicate vs.length v
    ∧ (dcpOf (calculate_radiocarbon (d :: ds) (v :: vs))).get? 1
        = some ((1 - v / 100) * 100) := by
  have hzip : (ds.zip vs).map Prod.fst = ds := List.map_fst_zip ds vs hlen.le
  have hcons : r14cFix none ((d, v) :: ds.zip vs)
      = v :: r14cFix (some v) (ds.zip vs) := by
    simp [r14cFix, hb]
  have hfix : calculate_radiocarbon (d :: ds) (v :: vs)
      = v :: List.replicate vs.length v := by
    unfold calculate_radiocarbon
    rw [List.zip_cons_cons, hcons]
    rw [r14cFix_const v (ds.zip vs) (fun d' hd' => hrest d' (hzip ▸ hd'))]
    rw [List.length_zip, hlen, min_self]
  refine ⟨hfix, ?_⟩
  rw [hfix]
  obtain ⟨v1, vs', rfl⟩ := List.exists_cons_of_ne_nil hne
  simp [dcpOf, List.replicate_succ]

/-- Witness for the amended C3 at the claim's concrete input. -/
theorem radiocarbon_freeze_witness :
    calculate_radiocarbon ["dissolve_bedrock", "degas_1", "degas_2", "degas_3"]
        [100, 95, 95.1, 94.9] = [100, 100, 100, 100]
    ∧ (dcpOf (calculate_radiocarbon
        ["dissolve_bedrock", "degas_1", "degas_2", "degas_3"]
        [100, 95, 95.1, 94.9])).get? 1 = some 0 := by
  have h := radiocarbon_freeze "dissolve_bedrock" 100
    ["degas_1", "degas_2", "degas_3"] [95, 95.1, 94.9]
    (by decide) (by decide) (by decide) (by simp)
  refine ⟨?_, ?_⟩
  · rw [h.1]
    simp [List.replicate]
  · rw [h.2]
    norm_num

/-- C9 counterexample: on a measured file whose headers are
`["Depth", "d13C (permil)"]` (no column containing "age"), `CDA` does NOT
raise — the IndexError from `age_column[0]` is swallowed by the
`except Exception` handler, which prints a generic message and returns, so
the run continues without matching rather than aborting. -/
theorem missing_age_not_fatal_counterexample :
    cdaIngest "data.csv" ["Depth", "d13C (permil)"] = CDAIngest.caughtError
    ∧ ¬ (∃ msg, cdaIngest "data.csv" ["Depth", "d13C (permil)"]
          = CDAIngest.raised msg) := by
  have hrun : cdaIngest "data.csv" ["Depth", "d13C (permil)"]
      = CDAIngest.caughtError := by decide
  refine ⟨hrun, ?_⟩
  rintro ⟨msg, hmsg⟩
  rw [hrun] at hmsg
  simp at hmsg

/-- C9 amended: with a non-empty `user_filepath`, a measured file with no
normalized header containing "age" makes `CDA` return early through its
exception handler (`caughtError`: message printed, matching skipped, run
continues); when an age header exists the ingestion proceeds, absent proxy
columns simply selecting `none` rather than erroring. -/
theorem missing_age_caught (fp : String) (cols : List String)
    (hfp : fp ≠ "") :
    ((cols.map normalizeCol).filter
        (fun c => strContains c "age") = [] →
      cdaIngest fp cols = CDAIngest.caughtError)
    ∧ (∀ a rest, (cols.map normalizeCol).filter
          (fun c => strContains c "age") = a :: rest →
        ∃ sc, cdaIngest fp cols = CDAIngest.proceeds sc ∧ sc.age = a) := by
  constructor
  · intro hempty
    unfold cdaIngest
    rw [if_neg hfp]
    unfold selectCols
    rw [hempty]
    rfl
  · intro a rest hcons
    unfold cdaIngest
    rw [if_neg hfp]
    unfold selectCols
    rw [hcons]
    exact ⟨_, rfl, rfl⟩

/-- Witness for the amended C9: one concrete ageless file and one concrete
file with an age column but no proxy columns. -/
theorem missing_age_caught_witness :
    cdaIngest "data.csv" ["Depth", "d13C (permil)"] = CDAIngest.caughtError
    ∧ ∃ sc, cdaIngest "data.csv" ["Age (yr BP)", "misc"]
        = CDAIngest.proceeds sc ∧ sc.age = "ageyrbp" :=
  ⟨(missing_age_caught "data.csv" ["Depth", "d13C (permil)"]
      (by decide)).1 (by decide),
   (missing_age_caught "data.csv" ["Age (yr BP)", "misc"]
      (by decide)).2 "ageyrbp" [] (by decide)⟩

/-- C8: `get_alpha` does NOT equal `exp(0.001 * get_1000lnalpha(...))` at
the temperature it is given: line 232 of util.py passes the literal
`temperature=298.15` to `get_1000lnalpha`, contradicting `get_alpha`'s own
docstring.  On a database whose `18O A/B` entry is the polynomial `T`
(coefficients `[0, 1]`), `get_alpha` at 400 K returns
`exp(0.001 * 298.15)` instead of `exp(0.001 * 400)`. -/
theorem get_alpha_ignores_temperature :
    get_alpha 2 [(("18O", "A/B"), [DBEntry.lnAlpha1000 [0, 1]])] "18O" "A/B" 400
      ≠ (get_1000lnalpha 2 [(("18O", "A/B"), [DBEntry.lnAlpha1000 [0, 1]])]
          "18O" "A/B" 400).map (fun v => Real.exp (0.001 * v)) := by
  have hlook : neLookup [(("18O", "A/B"), [DBEntry.lnAlpha1000 [0, 1]])]
      "18O" "A/B" = some [DBEntry.lnAlpha1000 [0, 1]] := by
    simp [neLookup, List.find?]
  have hval : ∀ T : ℝ, ¬ T < 50 →
      get_1000lnalpha 2 [(("18O", "A/B"), [DBEntry.lnAlpha1000 [0, 1]])]
        "18O" "A/B" T = some T := by
    intro T hT
    unfold get_1000lnalpha
    rw [if_neg hT, hlook]
    simp [database_eval]
  have h400 := hval 400 (by norm_num)
  have h298 := hval 298.15 (by norm_num)
  unfold get_alpha
  rw [h400, h298]
  simp only [Option.map_some', ne_eq, Option.some_inj]
  rw [Real.exp_eq_exp]
  norm_num

/-- A settings object with a dict-equal twin in the saved list is found by
`dict_find`. -/
theorem dict_find_of_twin {V : Type} [DecidableEq V] (so : SO V)
    (l : List (SO V)) (h : ∃ p ∈ l, dictEq so.params p.params = true) :
    ∃ i, dict_find so l = some i := by
  induction l with
  | nil => simp at h
  | cons hd tl ih =>
    by_cases hhd : dictEq so.params hd.params = true
    · exact ⟨0, by simp [dict_find, hhd]⟩
    · obtain ⟨p, hp, hpe⟩ := h
      rcases List.mem_cons.mp hp with rfl | hp'
      · exact absurd hpe hhd
      · obtain ⟨i, hi⟩ := ih ⟨p, hp', hpe⟩
        exact ⟨i + 1, by simp [dict_find, hhd, hi]⟩

/-- Unfolding rule for `checkPreviousSaves` at a fresh settings object. -/
theorem cps_cons_none {V : Type} [DecidableEq V] {R : Type}
    (s : SO V) (rest prev : List (SO V)) (res : List R)
    (hf : dict_find s prev = none) :
    checkPreviousSaves (s :: rest) prev res
      = (checkPreviousSaves rest prev res).map
          (fun t => (s :: t.1, t.2.1, t.2.2)) := by
  simp only [checkPreviousSaves, hf]

/-- Unfolding rule for `checkPreviousSaves` at a reused settings object. -/
theorem cps_cons_some {V : Type} [DecidableEq V] {R : Type}
    (s : SO V) (rest prev : List (SO V)) (res : List R)
    (i : ℕ) (p : SO V) (r : R)
    (hf : dict_find s prev = some i)
    (hp : prev.get? i = some p) (hr : res.get? i = some r) :
    checkPreviousSaves (s :: rest) prev res
      = (checkPreviousSaves rest prev res).map
          (fun t => (t.1, p :: t.2.1, r :: t.2.2)) := by
  simp only [checkPreviousSaves, hf, hp, hr]

/-- Unfolding rule for `checkPreviousSaves` when the stored input list is
too short for the found index. -/
theorem cps_cons_noprev {V : Type} [DecidableEq V] {R : Type}
    (s : SO V) (rest prev : List (SO V)) (res : List R)
    (i : ℕ) (hf : dict_find s prev = some i)
    (hp : prev.get? i = none) :
    checkPreviousSaves (s :: rest) prev res = Except.error () := by
  simp only [checkPreviousSaves, hf, hp]

/-- Unfolding rule for `checkPreviousSaves` when the stored results list is
too short for the found index. -/
theorem cps_cons_nores {V : Type} [DecidableEq V] {R : Type}
    (s : SO V) (rest prev : List (SO V)) (res : List R)
    (i : ℕ) (hf : dict_find s prev = some i)
    (hr : res.get? i = none) :
    checkPreviousSaves (s :: rest) prev res = Except.error () := by
  simp only [checkPreviousSaves, hf, hr]
  cases hp : prev.get? i <;> simp

/-- A settings object recognised by `dict_find` never survives into the
pending list produced by `checkPreviousSaves`. -/
theorem not_mem_new_input {V : Type} [DecidableEq V] {R : Type}
    (input prev : List (SO V)) (res : List R) (ni di : List (SO V))
    (dr : List R) (s : SO V) (hfind : dict_find s prev ≠ none)
    (hrun : checkPreviousSaves input prev res = Except.ok (ni, di, dr)) :
    s ∉ ni := by
  induction input generalizing ni di dr with
  | nil =>
    simp only [checkPreviousSaves, Except.ok.injEq, Prod.mk.injEq] at hrun
    obtain ⟨rfl, -, -⟩ := hrun
    simp
  | cons hd rest ih =>
    cases hf : dict_find hd prev with
    | none =>
      rw [cps_cons_none hd rest prev res hf] at hrun
      cases hrec : checkPreviousSaves rest prev res with
      | error e => rw [hrec] at hrun; simp [Except.map] at hrun
      | ok t =>
        rw [hrec] at hrun
        simp only [Except.map, Except.ok.injEq, Prod.mk.injEq] at hrun
        obtain ⟨h1, -, -⟩ := hrun
        subst h1
        intro hmem
        rcases List.mem_cons.mp hmem with rfl | hmem2
        · exact hfind hf
        · exact ih t.1 t.2.1 t.2.2 (by rw [hrec]) hmem2
    | some i =>
      cases hp : prev.get? i with
      | none => rw [cps_cons_noprev hd rest prev res i hf hp] at hrun; simp at hrun
      | some p =>
        cases hr : res.get? i with
        | none => rw [cps_cons_nores hd rest prev res i hf hr] at hrun; simp at hrun
        | some r =>
          rw [cps_cons_some hd rest prev res i p r hf hp hr] at hrun
          cases hrec : checkPreviousSaves rest prev res with
          | error e => rw [hrec] at hrun; simp [Except.map] at hrun
          | ok t =>
            rw [hrec] at hrun
            simp only [Except.map, Except.ok.injEq, Prod.mk.injEq] at hrun
            obtain ⟨h1, -, -⟩ := hrun
            subst h1
            exact ih t.1 t.2.1 t.2.2 (by rw [hrec])

/-- The stored result of a reused settings object is carried into
`done_results`. -/
theorem done_result_taken {V : Type} [DecidableEq V] {R : Type}
    (input prev : List (SO V)) (res : List R) (ni di : List (SO V))
    (dr : List R) (s : SO V) (i : ℕ) (hs : s ∈ input)
    (hfind : dict_find s prev = some i)
    (hrun : checkPreviousSaves input prev res = Except.ok (ni, di, dr)) :
    ∃ r, res.get? i = some r ∧ r ∈ dr := by
  induction input generalizing ni di dr with
  | nil => simp at hs
  | cons hd rest ih =>
    rcases List.mem_cons.mp hs with rfl | hs2
    · cases hp : prev.get? i with
      | none => rw [cps_cons_noprev s rest prev res i hfind hp] at hrun; simp at hrun
      | some p =>
        cases hr : res.get? i with
        | none => rw [cps_cons_nores s rest prev res i hfind hr] at hrun; simp at hrun
        | some r =>
          rw [cps_cons_some s rest prev res i p r hfind hp hr] at hrun
          cases hrec : checkPreviousSaves rest prev res with
          | error e => rw [hrec] at hrun; simp [Except.map] at hrun
          | ok t =>
            rw [hrec] at hrun
            simp only [Except.map, Except.ok.injEq, Prod.mk.injEq] at hrun
            obtain ⟨-, -, h3⟩ := hrun
            subst h3
            exact ⟨r, rfl, by simp⟩
    · cases hf : dict_find hd prev with
      | none =>
        rw [cps_cons_none hd rest prev res hf] at hrun
        cases hrec : checkPreviousSaves rest prev res with
        | error e => rw [hrec] at hrun; simp [Except.map] at hrun
        | ok t =>
          rw [hrec] at hrun
          simp only [Except.map, Except.ok.injEq, Prod.mk.injEq] at hrun
          obtain ⟨-, -, h3⟩ := hrun
          subst h3
          exact ih t.1 t.2.1 t.2.2 hs2 (by rw [hrec])
      | some j =>
        cases hp : prev.get? j with
        | none => rw [cps_cons_noprev hd rest prev res j hf hp] at hrun; simp at hrun
        | some p =>
          cases hr : res.get? j with
          | none => rw [cps_cons_nores hd rest prev res j hf hr] at hrun; simp at hrun
          | some r2 =>
            rw [cps_cons_some hd rest prev res j p r2 hf hp hr] at hrun
            cases hrec : checkPreviousSaves rest prev res with
            | error e => rw [hrec] at hrun; simp [Except.map] at hrun
            | ok t =>
              rw [hrec] at hrun
              simp only [Except.map, Except.ok.injEq, Prod.mk.injEq] at hrun
              obtain ⟨-, -, h3⟩ := hrun
              subst h3
              obtain ⟨r, hr1, hr2⟩ := ih t.1 t.2.1 t.2.2 hs2 (by rw [hrec])
              exact ⟨r, hr1, List.mem_cons_of_mem _ hr2⟩

/-- C6: a submitted settings object whose dict (same key set, all values
equal) matches one already persisted is reused: it is dropped from the
pending list, its stored result is carried into the reused results, and
the solver of `run_models` is applied only to the pending list (which the
object is not in). -/
theorem reuse_detection {V W : Type} [DecidableEq V]
    (input prev : List (SO V)) (res : List (W × ℕ))
    (ni di : List (SO V)) (dr : List (W × ℕ)) (s : SO V) (solve : SO V → W)
    (hs : s ∈ input)
    (hmatch : ∃ p ∈ prev, dictEq s.params p.params = true)
    (hrun : checkPreviousSaves input prev res = Except.ok (ni, di, dr)) :
    s ∉ ni
    ∧ (∃ i r, dict_find s prev = some i ∧ res.get? i = some r ∧ r ∈ dr)
    ∧ (runModels solve ni di dr).1
        = ni.map (fun x => (solve x, x.id)) ++ dr := by
  obtain ⟨i, hi⟩ := dict_find_of_twin s prev hmatch
  refine ⟨not_mem_new_input input prev res ni di dr s (by simp [hi]) hrun,
    ?_, rfl⟩
  obtain ⟨r, hr1, hr2⟩ := done_result_taken input prev res ni di dr s i hs hi hrun
  exact ⟨i, r, hi, hr1, hr2⟩

/-- Witness for C6: the settings dict with key "x" and value 1 was already
run (stored result 7 under id 0); resubmitted alongside a fresh dict, it is
reused, not re-solved. -/
theorem reuse_detection_witness :
    ((⟨0, [("x", (1 : ℤ))]⟩ : SO ℤ) ∉ [(⟨1, [("x", 2)]⟩ : SO ℤ)])
    ∧ (∃ i r, dict_find (⟨0, [("x", (1 : ℤ))]⟩ : SO ℤ) [⟨0, [("x", 1)]⟩]
        = some i ∧ [((7 : ℤ), 0)].get? i = some r ∧ r ∈ [((7 : ℤ), 0)])
    ∧ (runModels (fun _ => (9 : ℤ)) [(⟨1, [("x", 2)]⟩ : SO ℤ)]
        [⟨0, [("x", 1)]⟩] [((7 : ℤ), 0)]).1
        = [(⟨1, [("x", 2)]⟩ : SO ℤ)].map (fun x => ((9 : ℤ), x.id))
          ++ [((7 : ℤ), 0)] :=
  reuse_detection
    [⟨0, [("x", (1 : ℤ))]⟩, ⟨1, [("x", 2)]⟩] [⟨0, [("x", 1)]⟩]
    [((7 : ℤ), 0)] [⟨1, [("x", 2)]⟩] [⟨0, [("x", 1)]⟩] [((7 : ℤ), 0)]
    ⟨0, [("x", 1)]⟩ (fun _ => (9 : ℤ))
    (by simp)
    ⟨⟨0, [("x", 1)]⟩, by simp, by rfl⟩
    (by rfl)

/-- C7 counterexample: with submissions id 0 (previously run, stored
result 7) and id 1 (fresh), the final results list is
`[(fresh, 1), (reused, 0)]` — the reused pair is appended at the END, so
the pair with id 0 sits at position 1 and the pair with id 1 at position
0: positions do NOT correspond to ids. -/
theorem results_order_counterexample :
    checkPreviousSaves [(⟨0, [("x", (1 : ℤ))]⟩ : SO ℤ), ⟨1, [("x", 2)]⟩]
        [⟨0, [("x", 1)]⟩] [((7 : ℤ), 0)]
      = Except.ok ([⟨1, [("x", 2)]⟩], [⟨0, [("x", 1)]⟩], [((7 : ℤ), 0)])
    ∧ (runModels (fun _ => (9 : ℤ)) [(⟨1, [("x", 2)]⟩ : SO ℤ)]
        [⟨0, [("x", 1)]⟩] [((7 : ℤ), 0)]).1 = [((9 : ℤ), 1), ((7 : ℤ), 0)]
    ∧ ¬ (∀ k p, (runModels (fun _ => (9 : ℤ)) [(⟨1, [("x", 2)]⟩ : SO ℤ)]
        [⟨0, [("x", 1)]⟩] [((7 : ℤ), 0)]).1.get? k = some p → p.2 = k) := by
  refine ⟨rfl, rfl, ?_⟩
  intro hall
  have h10 := hall 0 ((9 : ℤ), 1) rfl
  exact Nat.one_ne_zero h10

/-- C7 amended: after reuse partitioning, `run_models` produces the fresh
`(result, id)` pairs first, in pending submission order and index-aligned
with the final input list, with the reused pairs appended afterwards — the
collection is index-aligned with `self.input`, not ordered by id. -/
theorem results_order {V W : Type} [DecidableEq V]
    (input prev : List (SO V)) (res : List (W × ℕ))
    (ni di : List (SO V)) (dr : List (W × ℕ)) (solve : SO V → W)
    (_hrun : checkPreviousSaves input prev res = Except.ok (ni, di, dr)) :
    (runModels solve ni di dr).1 = ni.map (fun s => (solve s, s.id)) ++ dr
    ∧ (runModels solve ni di dr).2 = ni ++ di
    ∧ (∀ k, k < ni.length → (runModels solve ni di dr).1.get? k
        = (ni.get? k).map (fun s => (solve s, s.id)))
    ∧ (∀ m, (runModels solve ni di dr).1.get? (ni.length + m) = dr.get? m) := by
  refine ⟨rfl, rfl, fun k hk => ?_, fun m => ?_⟩
  · show (ni.map (fun s => (solve s, s.id)) ++ dr).get? k = _
    rw [List.get?_append (by simpa using hk), List.get?_map]
  · show (ni.map (fun s => (solve s, s.id)) ++ dr).get? (ni.length + m) = _
    rw [List.get?_append_right (by simp)]
    simp

/-- Witness for the amended C7 at the counterexample's concrete batch. -/
theorem results_order_witness :
    (runModels (fun _ => (9 : ℤ)) [(⟨1, [("x", 2)]⟩ : SO ℤ)]
        [⟨0, [("x", 1)]⟩] [((7 : ℤ), 0)]).1
      = [(⟨1, [("x", 2)]⟩ : SO ℤ)].map (fun s => ((9 : ℤ), s.id))
        ++ [((7 : ℤ), 0)]
    ∧ (runModels (fun _ => (9 : ℤ)) [(⟨1, [("x", 2)]⟩ : SO ℤ)]
        [⟨0, [("x", 1)]⟩] [((7 : ℤ), 0)]).2
      = [(⟨1, [("x", 2)]⟩ : SO ℤ)] ++ [⟨0, [("x", 1)]⟩] :=
  ⟨(results_order [(⟨0, [("x", (1 : ℤ))]⟩ : SO ℤ), ⟨1, [("x", 2)]⟩]
      [⟨0, [("x", 1)]⟩] [((7 : ℤ), 0)] [⟨1, [("x", 2)]⟩] [⟨0, [("x", 1)]⟩]
      [((7 : ℤ), 0)] (fun _ => (9 : ℤ)) (by rfl)).1,
   (results_order [(⟨0, [("x", (1 : ℤ))]⟩ : SO ℤ), ⟨1, [("x", 2)]⟩]
      [⟨0, [("x", 1)]⟩] [((7 : ℤ), 0)] [⟨1, [("x", 2)]⟩] [⟨0, [("x", 1)]⟩]
      [((7 : ℤ), 0)] (fun _ => (9 : ℤ)) (by rfl)).2.1⟩

/-- Inversion for a bind that produced `.ok true`. -/
theorem bind_ok_true {α : Type} {a : Except Unit α} {f : α → Except Unit Bool}
    (h : a.bind f = Except.ok true) :
    ∃ x, a = Except.ok x ∧ f x = Except.ok true := by
  cases a with
  | error e => simp [Except.bind] at h
  | ok x => exact ⟨x, rfl, h⟩

/-- The match loop records exactly the timepoints of its index list whose
decision is an `.ok true`. -/
theorem matchLoop_mem_iff (sv : SpelVals) (md : Measured) (tl : Tolerances)
    (l ms : List ℕ) (h : matchLoop sv md tl l = Except.ok ms) (j : ℕ) :
    j ∈ ms ↔ (j ∈ l ∧ matchDecision sv md tl j = Except.ok true) := by
  induction l generalizing ms with
  | nil =>
    simp only [matchLoop, Except.ok.injEq] at h
    subst h
    simp
  | cons j2 rest ih =>
    simp only [matchLoop] at h
    cases hb : matchDecision sv md tl j2 with
    | error e => rw [hb] at h; simp [Except.bind] at h
    | ok b =>
      rw [hb] at h
      cases hrest : matchLoop sv md tl rest with
      | error e => rw [hrest] at h; simp [Except.bind] at h
      | ok ms2 =>
        rw [hrest] at h
        simp only [Except.bind, Except.ok.injEq] at h
        subst h
        have hih := ih ms2 hrest
        cases b with
        | true =>
          simp only [if_true]
          constructor
          · intro hmem
            rcases List.mem_cons.mp hmem with rfl | hmem2
            · exact ⟨List.mem_cons_self _ _, hb⟩
            · obtain ⟨hl, hdec⟩ := hih.mp hmem2
              exact ⟨List.mem_cons_of_mem _ hl, hdec⟩
          · rintro ⟨hl, hdec⟩
            rcases List.mem_cons.mp hl with rfl | hl2
            · exact List.mem_cons_self _ _
            · exact List.mem_cons_of_mem _ (hih.mpr ⟨hl2, hdec⟩)
        | false =>
          simp only [Bool.false_eq_true, if_false]
          constructor
          · intro hmem
            obtain ⟨hl, hdec⟩ := hih.mp hmem
            exact ⟨List.mem_cons_of_mem _ hl, hdec⟩
          · rintro ⟨hl, hdec⟩
            rcases List.mem_cons.mp hl with rfl | hl2
            · rw [hb] at hdec
              simp at hdec
            · exact hih.mpr ⟨hl2, hdec⟩

/-- An out-of-tolerance MgCa residual forces the decision away from
`.ok true`. -/
theorem mgca_blocks (sv : SpelVals) (md : Measured) (tl : Tolerances) (j : ℕ)
    (lm : List ℚ) (R : ℚ)
    (hmg : md.MgCa = some lm)
    (hne : lm.isEmpty = false)
    (hres : resOptSpel sv.MgCa md.MgCa j = Except.ok (some R))
    (hfail : ¬ |R| ≤ tl.MgCa)
    (hdec : matchDecision sv md tl j = Except.ok true) : False := by
  unfold matchDecision at hdec
  obtain ⟨r18, h1, hdec⟩ := bind_ok_true hdec
  obtain ⟨rmg, h2, hdec⟩ := bind_ok_true hdec
  have hrmg : rmg = some R := Except.ok.inj (h2.symm.trans hres)
  obtain ⟨rdcp, h3, hdec⟩ := bind_ok_true hdec
  obtain ⟨r44, h4, hdec⟩ := bind_ok_true hdec
  obtain ⟨rsr, h5, hdec⟩ := bind_ok_true hdec
  obtain ⟨rba, h6, hdec⟩ := bind_ok_true hdec
  obtain ⟨ru, h7, hdec⟩ := bind_ok_true hdec
  obtain ⟨oc, h8, hdec⟩ := bind_ok_true hdec
  obtain ⟨mc, h9, hdec⟩ := bind_ok_true hdec
  have hmc : mc = false := by
    rw [hmg, hrmg] at h9
    simp only [checkTruthy, hne, Bool.false_eq_true, if_false,
      Except.ok.injEq] at h9
    rw [← h9]
    exact decide_eq_false hfail
  obtain ⟨dc, h10, hdec⟩ := bind_ok_true hdec
  obtain ⟨cc, h11, hdec⟩ := bind_ok_true hdec
  obtain ⟨sc, h12, hdec⟩ := bind_ok_true hdec
  obtain ⟨bc, h13, hdec⟩ := bind_ok_true hdec
  obtain ⟨uc, h14, hdec⟩ := bind_ok_true hdec
  have hb := Except.ok.inj hdec
  subst hmc
  simp at hb

/-- When only the d13C proxy is present every other check is vacuously
`.ok true`, and an in-tolerance d13C residual makes the decision
`.ok true`. -/
theorem only_d13c_decision (sv : SpelVals) (md : Measured) (tl : Tolerances)
    (j : ℕ) (ld : List ℚ) (dmv : ℚ)
    (hd : md.d13C = some ld)
    (h18 : md.d18O = none) (hmg : md.MgCa = none) (hdcp : md.dcp = none)
    (h44 : md.d44Ca = none) (hsr : md.SrCa = none) (hba : md.BaCa = none)
    (hu : md.UCa = none)
    (hmj : ld.get? j = some dmv)
    (htol : |sv.d13C - dmv| ≤ tl.d13C) :
    matchDecision sv md tl j = Except.ok true := by
  have hne : ld.isEmpty = false := by
    cases ld with
    | nil => simp at hmj
    | cons a l => rfl
  have hres : residD13C sv md j = some (sv.d13C - dmv) := by
    unfold residD13C
    rw [hd]
    rw [List.get?_eq_getElem?] at hmj
    simp [hmj]
  have hrc : checkD13C md.d13C (residD13C sv md j) tl.d13C = true := by
    rw [hd, hres]
    simp only [checkD13C, hne, Bool.false_eq_true, if_false]
    exact decide_eq_true htol
  unfold matchDecision
  rw [h18, hmg, hdcp, h44, hsr, hba, hu]
  simp only [resQSpel, resOptSpel, checkTruthy, checkD44, Except.bind]
  rw [hrc]
  simp

/-- C1: a row is appended to the Matches accumulator for `(i, j)` only when
the full eight-way conjunction of per-proxy checks evaluates true; in
particular, with measured d13C and MgCa both present at timepoint `j` and
both predicted, a d13C residual within tolerance but an MgCa residual
strictly outside tolerance means `j` is NOT recorded. -/
theorem match_requires_all :
    (∀ (sv : SpelVals) (md : Measured) (tl : Tolerances) (ms : List ℕ)
        (j : ℕ), cdaMatches sv md tl = Except.ok ms → j ∈ ms →
        matchDecision sv md tl j = Except.ok true)
    ∧ (∀ (raw : SpelRaw) (md : Measured) (tl : Tolerances) (j : ℕ)
        (ld lm : List ℚ) (dv mv dmv mmv : ℚ) (ms : List ℕ),
        md.d13C = some ld → md.MgCa = some lm →
        raw.d13C = some dv → raw.MgCa = some mv →
        ld.get? j = some dmv → lm.get? j = some mmv →
        |dv - dmv| ≤ tl.d13C → tl.MgCa < |mv * 1000 - mmv| →
        cdaMatches (spelTransform raw) md tl = Except.ok ms →
        j ∉ ms) := by
  constructor
  · intro sv md tl ms j hrun hmem
    unfold cdaMatches at hrun
    exact ((matchLoop_mem_iff sv md tl _ ms hrun j).mp hmem).2
  · intro raw md tl j ld lm dv mv dmv mmv ms hd hmg hrawd hrawm hdj hmj
      htol hout hrun hmem
    unfold cdaMatches at hrun
    have hdec := ((matchLoop_mem_iff _ md tl _ ms hrun j).mp hmem).2
    have hne : lm.isEmpty = false := by
      cases lm with
      | nil => simp at hmj
      | cons a l => rfl
    have hsvmg : (spelTransform raw).MgCa = some (mv * 1000) := by
      simp [spelTransform, hrawm]
    have hpy : pyIndex lm j = Except.ok mmv := by
      unfold pyIndex
      rw [hmj]
    have hres : resOptSpel (spelTransform raw).MgCa md.MgCa j
        = Except.ok (some (mv * 1000 - mmv)) := by
      rw [hsvmg, hmg]
      simp only [resOptSpel, hne, Bool.false_eq_true, if_false, hpy,
        Except.map]
    exact mgca_blocks (spelTransform raw) md tl j lm (mv * 1000 - mmv)
      hmg hne hres (not_le.mpr hout) hdec

/-- C2: with measured data carrying only an age and a d13C column, a
timepoint whose d13C residual is within tolerance is recorded as a match,
whatever the other proxies' predicted values: every other check is
vacuously true. -/
theorem missing_proxy_nonblocking (raw : SpelRaw) (md : Measured)
    (tl : Tolerances) (j : ℕ) (ld : List ℚ) (dv dmv : ℚ) (ms : List ℕ)
    (hd : md.d13C = some ld)
    (h18 : md.d18O = none) (hmg : md.MgCa = none) (hdcp : md.dcp = none)
    (h44 : md.d44Ca = none) (hsr : md.SrCa = none) (hba : md.BaCa = none)
    (hu : md.UCa = none)
    (hjage : j < md.age.length)
    (hraw : raw.d13C = some dv)
    (hmj : ld.get? j = some dmv)
    (htol : |dv - dmv| ≤ tl.d13C)
    (hrun : cdaMatches (spelTransform raw) md tl = Except.ok ms) :
    j ∈ ms
    ∧ matchDecision (spelTransform raw) md tl j = Except.ok true := by
  have hsv : (spelTransform raw).d13C = dv := by
    simp [spelTransform, hraw]
  have hdec := only_d13c_decision (spelTransform raw) md tl j ld dmv hd h18
    hmg hdcp h44 hsr hba hu hmj (by rw [hsv]; exact htol)
  unfold cdaMatches at hrun
  exact ⟨(matchLoop_mem_iff _ md tl _ ms hrun j).mpr
    ⟨List.mem_range.mpr hjage, hdec⟩, hdec⟩

/-- Concrete raw predicted values for the C1 witness: d13C and MgCa
predicted, the rest absent. -/
def c1raw : SpelRaw :=
  { d13C := some 1, d18O := none, MgCa := some 1, SrCa := none,
    BaCa := none, UCa := none, dcp := none, d44Ca := none }

/-- Concrete measured data for the C1 witness: one timepoint, d13C and
MgCa columns present. -/
def c1md : Measured :=
  { age := [0], d13C := some [1], d18O := none, MgCa := some [5],
    dcp := none, d44Ca := none, SrCa := none, BaCa := none, UCa := none }

/-- Concrete tolerances for the C1 witness: all set to 1. -/
def c1tl : Tolerances :=
  { d13C := 1, d18O := 1, MgCa := 1, dcp := 1, d44Ca := 1, SrCa := 1,
    BaCa := 1, UCa := 1 }

/-- Witness for C1: predicted d13C 1 matches measured 1 within tolerance,
but predicted MgCa 1 scales to 1000 against measured 5 (residual 995,
tolerance 1) — no timepoint is recorded. -/
theorem match_requires_all_witness :
    cdaMatches (spelTransform c1raw) c1md c1tl = Except.ok []
    ∧ (0 : ℕ) ∉ ([] : List ℕ) := by
  have hmgf : decide (|(1 : ℚ) * 1000 - 5| ≤ 1) = false :=
    decide_eq_false (by norm_num)
  have hdec0 : matchDecision (spelTransform c1raw) c1md c1tl 0
      = Except.ok (decide (|(1 : ℚ) - 1| ≤ 1)
          && decide (|(1 : ℚ) * 1000 - 5| ≤ 1)
          && true && true && true && true && true && true) := rfl
  have hdec : matchDecision (spelTransform c1raw) c1md c1tl 0
      = Except.ok false := by
    rw [hdec0, hmgf]
    simp
  have hrun : cdaMatches (spelTransform c1raw) c1md c1tl = Except.ok [] := by
    unfold cdaMatches
    have hr1 : List.range c1md.age.length = [0] := rfl
    rw [hr1]
    unfold matchLoop
    rw [hdec]
    simp [matchLoop, Except.bind]
  refine ⟨hrun, ?_⟩
  exact match_requires_all.2 c1raw c1md c1tl 0 [1] [5] 1 1 1 5 []
    rfl rfl rfl rfl rfl rfl (by norm_num [c1tl]) (by norm_num [c1tl]) hrun

/-- Concrete raw predicted values for the C2 witness: d13C predicted in
tolerance; an MgCa prediction is present but must not matter. -/
def c2raw : SpelRaw :=
  { d13C := some 2, d18O := none, MgCa := some 3, SrCa := none,
    BaCa := none, UCa := none, dcp := none, d44Ca := none }

/-- Concrete measured data for the C2 witness: one timepoint, only age and
d13C columns. -/
def c2md : Measured :=
  { age := [0], d13C := some [2], d18O := none, MgCa := none,
    dcp := none, d44Ca := none, SrCa := none, BaCa := none, UCa := none }

/-- Concrete tolerances for the C2 witness: all set to 1. -/
def c2tl : Tolerances :=
  { d13C := 1, d18O := 1, MgCa := 1, dcp := 1, d44Ca := 1, SrCa := 1,
    BaCa := 1, UCa := 1 }

/-- Witness for C2: measured data with only a d13C column, predicted d13C
within tolerance — timepoint 0 is recorded as a match. -/
theorem missing_proxy_nonblocking_witness :
    cdaMatches (spelTransform c2raw) c2md c2tl = Except.ok [0]
    ∧ (0 : ℕ) ∈ [0]
    ∧ matchDecision (spelTransform c2raw) c2md c2tl 0 = Except.ok true := by
  have hdec : matchDecision (spelTransform c2raw) c2md c2tl 0
      = Except.ok true := by
    have hsv : (spelTransform c2raw).d13C = 2 := rfl
    exact only_d13c_decision (spelTransform c2raw) c2md c2tl 0 [2] 2
      rfl rfl rfl rfl rfl rfl rfl rfl rfl (by rw [hsv]; norm_num [c2tl])
  have hrun : cdaMatches (spelTransform c2raw) c2md c2tl
      = Except.ok [0] := by
    unfold cdaMatches
    have hr1 : List.range c2md.age.length = [0] := rfl
    rw [hr1]
    unfold matchLoop
    rw [hdec]
    simp [matchLoop, Except.bind]
  have h := missing_proxy_nonblocking c2raw c2md c2tl 0 [2] 2 2 [0]
    rfl rfl rfl rfl rfl rfl rfl rfl (by norm_num [c2md]) rfl rfl
    (by norm_num [c2tl]) hrun
  exact ⟨hrun, h.1, h.2⟩
